import Mathlib

/-!
Verification of the natural-language specification of rar2john
(src/src/rar2john.c) against a shallow embedding of its code.

The archive file is modelled as a list of bytes with a read position and the
C stdio end-of-file indicator.  Output to stdout is modelled as a trace of
write events (one event per printf/puts call); stderr diagnostics carry no
information relevant to the verified properties and are elided, but every
branch they guard is kept.  External collaborators that are not part of this
repository (libc basename, SHA-256, the UTF-16 conversion layer used for
flag-0x200 filenames) enter the model as parameters.
-/

set_option maxRecDepth 8000

namespace Rar2John

/-- A seekable byte stream: the archive bytes, the read position, and the
C stdio end-of-file indicator. -/
structure RStream where
  data : List Nat
  pos : Nat
  eof : Bool
  deriving DecidableEq, Repr

/-- C `fread(buf, 1, n, fp)` on a regular file: reads up to `n` bytes from
the current position, advancing by the number of bytes actually read; the
EOF indicator is set when fewer than `n` bytes were available (and is left
unchanged when `n = 0`).  Returns (bytes read, their count, stream after). -/
def fread (s : RStream) (n : Nat) : List Nat × Nat × RStream :=
  let bytes := (s.data.drop s.pos).take n
  let got := bytes.length
  (bytes, got, { s with pos := s.pos + got, eof := s.eof || decide (got < n) })

/-- `fseek(fp, p, SEEK_SET)`: clears the EOF indicator. -/
def fseekSet (s : RStream) (p : Nat) : RStream :=
  { s with pos := p, eof := false }

/-- `fseek(fp, d, SEEK_CUR)` with a nonnegative offset (the only relative
seeks the modelled code performs): clears the EOF indicator. -/
def fseekCur (s : RStream) (d : Nat) : RStream :=
  { s with pos := s.pos + d, eof := false }

/-- `jtr_fseek64(fp, -24, SEEK_END)`: on a file shorter than 24 bytes the
seek fails and the position (and indicators) stay unchanged. -/
def fseekEnd24 (s : RStream) : RStream :=
  if 24 ≤ s.data.length then { s with pos := s.data.length - 24, eof := false }
  else s

/-- The characters of a string literal. -/
def chars (s : String) : List Char := s.data

/-- The hex digits of `itoa16` used by the formatter. -/
def itoa16 : List Char := chars "0123456789abcdef"

/-- One hex digit, `itoa16[n]`. -/
def hexNib (n : Nat) : Char := itoa16.getD n '0'

/-- Two hex characters of one byte: `itoa16[b >> 4]`, `itoa16[b & 0x0f]`. -/
def hexByte (b : Nat) : List Char := [hexNib (b >>> 4), hexNib (b &&& 15)]

/-- Lowercase hex of a byte string. -/
def hexBytes (l : List Nat) : List Char := (l.map hexByte).flatten

/-- Decimal formatting, `printf %d` / `%llu` of a nonnegative value. -/
def natChars (n : Nat) : List Char := (Nat.repr n).data

/-- A byte interpreted as a character (the modelled inputs are ASCII). -/
def charOfByte (b : Nat) : Char := Char.ofNat b

/-- The newline character. -/
def nl : Char := Char.ofNat 10

/-- Split a character sequence into newline-terminated lines (the splitter
used to define what one emitted record is). -/
def splitLines : List Char → List (List Char)
  | [] => [[]]
  | c :: cs =>
    if c = nl then [] :: splitLines cs
    else
      match splitLines cs with
      | [] => [[c]]
      | l :: ls => (c :: l) :: ls

/-- Little-endian 16-bit value at offset `i` of a byte buffer,
`b[i+1] << 8 | b[i]`. -/
def le16 (b : List Nat) (i : Nat) : Nat := b.getD (i + 1) 0 * 256 + b.getD i 0

/-- Little-endian 32-bit value at offset `i` of a byte buffer. -/
def le32 (b : List Nat) (i : Nat) : Nat :=
  ((b.getD (i + 3) 0 * 256 + b.getD (i + 2) 0) * 256 + b.getD (i + 1) 0) * 256 +
    b.getD i 0

/-- An observable action of process_file: a stream read (position, requested
length, obtained length), a stream seek (resulting position), one write call
to stdout, or the hand-off to the SFX/RAR5 dispatch path. -/
inductive Ev where
  | read (pos len got : Nat)
  | seek (pos : Nat)
  | write (s : List Char)
  | dispatched
  deriving DecidableEq, Repr

/-- Whether an event is a stdout write. -/
def isWriteEv : Ev → Bool
  | .write _ => true
  | _ => false

/-- The stdout write payloads of a trace, in order. -/
def writesOf (evs : List Ev) : List (List Char) :=
  evs.filterMap fun e =>
    match e with
    | .write s => some s
    | _ => none

/-- Everything written to stdout by a trace. -/
def stdoutOf (evs : List Ev) : List Char := (writesOf evs).flatten

/-- The hash records a RAR3 run emitted: stdout of process_file carries
nothing but record text, so the records are the nonempty lines. -/
def rar3Records (evs : List Ev) : List (List Char) :=
  (splitLines (stdoutOf evs)).filter fun l => !l.isEmpty

/-- `SIZE_MAX` of a build whose `size_t` is `szT` bytes wide. -/
def sizeMax (szT : Nat) : Nat := 2 ^ (8 * szT) - 1

/-- The candidate-skip condition of process_file (rar2john.c:574-581): the
incumbent is (bp, bu, bm) = bestsize.{pack, unp, method}, the new entry is
(p, u, m).  `true` means the new entry is rejected ("We got a better
candidate already"). -/
def selSkip (szT bp bu bm p u m : Nat) : Bool :=
  decide (bp < sizeMax szT) &&
    (((decide (bp < p) && decide ((if 0x30 < bm then 4 else 1) ≤ bu)) ||
        (decide (u < bu) && decide (u < if 0x30 < m then 4 else 1))) ||
      (decide (bp = p) &&
        ((decide (u < bu) && decide (u < 8)) ||
          (decide (bu ≤ u) && decide (8 ≤ bu)))))

/-- The selector's running state, struct bestsize of process_file (a new
candidate is the same shape). -/
structure BestSize where
  pack : Nat
  unp : Nat
  method : Nat
  deriving DecidableEq, Repr

/-- The initial bestsize `{ SIZE_MAX, SIZE_MAX }` (method zero-filled). -/
def best0 (szT : Nat) : BestSize :=
  { pack := sizeMax szT, unp := sizeMax szT, method := 0 }

/-- One encounter of an encrypted candidate: keep the incumbent when the
skip condition holds, otherwise admit the new entry (rar2john.c:574-593). -/
def selStep (szT : Nat) (b c : BestSize) : BestSize :=
  if selSkip szT b.pack b.unp b.method c.pack c.unp c.method then b else c

/-- The selector folded over the archive's candidates in order. -/
def selRun (szT : Nat) (cs : List BestSize) : BestSize :=
  cs.foldl (selStep szT) (best0 szT)

/-- `PATH_BUF_SIZE` (rar2john.c:73); `file_name` is `4 * PATH_BUF_SIZE`
bytes. -/
def PATH_BUF_SIZE : Nat := 256

/-- Modelled from the spec: the filename accumulator ("gecos") is "bounded
in length" by "a fixed line buffer" (`LINE_BUFFER_SIZE` comes from params.h,
which is not part of this repository); the concrete value only caps the
accumulated-filename field of a record. -/
def LINE_BUFFER_SIZE : Nat := 1024

/-- The fixed context of one process_file call.  `base` and `aname` are
`basename(archive_name)` (libc, external) and the archive name; `szT` is the
build's `sizeof(size_t)`; `decodeName` stands for the external
DecodeFileName/utf16_to_utf8_r combination applied under flag 0x0200. -/
structure R3Cfg where
  base : List Char
  aname : List Char
  verbose : Bool
  szT : Nat
  decodeName : List Nat → List Nat

/-- The mutable state of process_file's header loop: the stream, bestsize,
the buffered best record and its `best_len` counter, the gecos accumulator
and its length counter, and the event trace so far. -/
structure R3S where
  s : RStream
  bp : Nat
  bu : Nat
  bm : Nat
  best : Option (List Char)
  bestLen : Nat
  gecos : List Char
  gecosLen : Nat
  evs : List Ev

/-- An fread performed by the loop, logged in the trace. -/
def doRead (st : R3S) (n : Nat) : List Nat × Nat × R3S :=
  let (bytes, got, s2) := fread st.s n
  (bytes, got, { st with s := s2, evs := st.evs ++ [Ev.read st.s.pos n got] })

/-- A relative forward seek performed by the loop, logged in the trace. -/
def doSeekCur (st : R3S) (d : Nat) : R3S :=
  let s2 := fseekCur st.s d
  { st with s := s2, evs := st.evs ++ [Ev.seek s2.pos] }

/-- The `SEEK_END, -24` seek of the mode-0 path, logged in the trace. -/
def doSeekEnd24 (st : R3S) : R3S :=
  let s2 := fseekEnd24 st.s
  { st with s := s2, evs := st.evs ++ [Ev.seek s2.pos] }

/-- The fixed-offset fields process_file decodes from a 32-byte file-header
block: flags (bytes 3-4), head size (5-6), packed size low 32 bits (7-10),
unpacked size low 32 bits (11-14), CRC (16-19), method (25), filename
length (26-27). -/
structure HdrFields where
  flags : Nat
  headSize : Nat
  pack0 : Nat
  unp0 : Nat
  crc : List Nat
  method : Nat
  fns : Nat
  deriving DecidableEq, Repr

/-- Decode the fixed fields of a file-header block. -/
def hdrFields (b : List Nat) : HdrFields :=
  { flags := le16 b 3
    headSize := le16 b 5
    pack0 := le32 b 7
    unp0 := le32 b 11
    crc := [b.getD 16 0, b.getD 17 0, b.getD 18 0, b.getD 19 0]
    method := b.getD 25 0
    fns := le16 b 26 }

/-- What one pass of the file-header loop decides: continue with the next
header (`goto next_file_header`), flush the best candidate (`goto BailOut`),
or end the whole run with the final trace (`goto err`, or the mode-0 path
falling through to the cleanup label). -/
inductive StepRes where
  | cont (st : R3S)
  | bailNow (st : R3S)
  | stop (evs : List Ev)

/-- The mode-0 emission (rar2john.c:339-363): the record prefix is printed,
then the stream is repositioned 24 bytes before end-of-file and the 8-byte
salt plus 16 known-plaintext bytes are read and printed.  Each printf call
is one write event; a failed tail read is `goto err`. -/
def mode0Emit (cfg : R3Cfg) (st0 : R3S) : List Ev :=
  let st := { st0 with evs := st0.evs ++ [Ev.write (cfg.base ++ chars ":$RAR3$*0*")] }
  let st := doSeekEnd24 st
  let (buf, got, st) := doRead st 24
  if got < 24 then st.evs
  else
    st.evs ++ ((buf.take 8).map fun b => Ev.write (hexByte b)) ++
      [Ev.write (chars "*")] ++
      (((buf.drop 8).take 16).map fun b => Ev.write (hexByte b)) ++
      [Ev.write (chars ":0::::" ++ cfg.aname ++ [nl])]

/-- The ciphertext-inlining loop (rar2john.c:638-652): iterates
`file_hdr_pack_size` times, reading up to 64 KiB per fread; a short fread
only prints to stderr and the hex conversion still covers `to_read` bytes
(the unread, uninitialized bytes are modelled as zeros; the verified inputs
never reach that case). -/
def cipherLoop : Nat → Nat → R3S → List Char × R3S
  | 0, _, st => ([], st)
  | i + 1, bytesLeft, st =>
    let toRead := min 65536 bytesLeft
    let (bytes, got, st) := doRead st toRead
    let hx := hexBytes (bytes ++ List.replicate (toRead - got) 0)
    let (rest, st) := cipherLoop i (bytesLeft - toRead) st
    (hx ++ rest, st)

/-- The mode-1 body of the file-header loop (rar2john.c:364-657): flag
checks, optional 64-bit size words, filename, gecos accumulation, optional
salt and EXT_TIME regions, the solid/directory/unencrypted skips, the
candidate selector, and the in-memory assembly of the record. -/
def mode1Body (cfg : R3Cfg) (typ : Nat) (f : HdrFields) (st0 : R3S) : StepRes := Id.run do
  let mut st := st0
  if f.flags &&& 0x8000 = 0 then
    return .bailNow st
  let mut pack := f.pack0
  let mut unp := f.unp0
  let mut extTime : Int := (f.headSize : Int) - 32
  if f.flags &&& 0x100 ≠ 0 then
    let (b1, got1, st1) := doRead st 4
    st := st1
    if got1 < 4 then
      return .stop st.evs
    pack := (pack + le32 b1 0 * 2 ^ 32) % 2 ^ (8 * cfg.szT)
    extTime := extTime - 4
    let (b2, got2, st2) := doRead st 4
    st := st2
    if got2 < 4 then
      return .stop st.evs
    unp := (unp + le32 b2 0 * 2 ^ 32) % 2 ^ (8 * cfg.szT)
    extTime := extTime - 4
    -- the unsupported-64-bit check sits inside the verbose block
    if cfg.verbose ∧ cfg.szT < 8 then
      return .stop st.evs
  -- file name
  if 4 * PATH_BUF_SIZE < f.fns then
    return .stop st.evs
  let (nb, gotn, stn) := doRead st f.fns
  st := stn
  if f.fns = 0 ∨ gotn < f.fns then
    return .stop st.evs
  let mut fileName := (nb ++ List.replicate (4 * PATH_BUF_SIZE - gotn) 0).set (4 * PATH_BUF_SIZE - 1) 0
  extTime := extTime - f.fns
  if f.flags &&& 0x200 ≠ 0 then
    fileName := cfg.decodeName fileName
  -- gecos accumulation (snprintf writes at most bound-1 characters)
  let cstr := fileName.takeWhile fun b => decide (b ≠ 0)
  if st.gecosLen + cstr.length < LINE_BUFFER_SIZE then
    let src := cstr.map charOfByte ++ [' ']
    let bound := LINE_BUFFER_SIZE - st.gecosLen - 1
    st := { st with gecos := st.gecos ++ src.take (bound - 1),
                    gecosLen := st.gecosLen + src.length }
  -- salt
  let mut salt : List Nat := List.replicate 8 0
  if f.flags &&& 0x400 ≠ 0 then
    extTime := extTime - 8
    let (sb, gots, sts) := doRead st 8
    st := sts
    if gots < 8 then
      return .stop st.evs
    salt := sb
  -- EXT_TIME ((size_t)ext_time_size, checked against sizeof(rejbuf) = 32)
  if f.flags &&& 0x1000 ≠ 0 then
    let ets : Nat := (extTime % (2 ^ (8 * cfg.szT) : Int)).toNat
    if 32 < ets then
      return .stop st.evs
    let (_, gote, ste) := doRead st ets
    st := ste
    if ets = 0 ∨ gote < ets then
      return .stop st.evs
  -- skip solid entries
  if f.flags &&& 0x10 ≠ 0 then
    return .cont (doSeekCur st pack)
  -- skip directories
  if (f.flags &&& 0xe0) >>> 5 = 7 then
    return .cont (doSeekCur st pack)
  -- skip unencrypted entries
  if f.flags &&& 0x04 = 0 then
    return .cont (doSeekCur st pack)
  -- the candidate selector
  if selSkip cfg.szT st.bp st.bu st.bm pack unp f.method then
    return .cont (doSeekCur st pack)
  -- admitted: record assembled in the `best` buffer, written only at BailOut
  let (hx, stc) := cipherLoop pack pack st
  st := stc
  let pre := cfg.base ++ chars ":$RAR3$*" ++ natChars typ ++ chars "*" ++
    hexBytes salt ++ chars "*" ++ hexBytes f.crc ++ chars "*" ++
    natChars pack ++ chars "*" ++ natChars unp ++ chars "*" ++ chars "1*"
  let tail := chars "*" ++ hexByte f.method ++ chars ":" ++ natChars typ ++ chars "::"
  -- best_len counts the ciphertext as pack (not 2*pack) characters, exactly
  -- as the source does; it only feeds the strncat bound below
  return .cont { st with bp := pack, bu := unp, bm := f.method,
                         best := some (pre ++ hx ++ tail),
                         bestLen := pre.length + pack + tail.length }

/-- Dispatch after the tag checks: mode 0 emits from the archive tail and
ends the run; mode 1 processes the block as a file entry. -/
def r3Dispatch (cfg : R3Cfg) (typ : Nat) (block : List Nat) (st : R3S) : StepRes :=
  if typ = 0 then .stop (mode0Emit cfg st)
  else mode1Body cfg typ (hdrFields block) st

/-- The tag checks of the loop (rar2john.c:323-332): in mode 1 a 0x7a tag
only triggers a verbose diagnostic and processing falls through; any tag
other than 0x74 and 0x7a ends parsing. -/
def r3PostRead (cfg : R3Cfg) (typ : Nat) (block : List Nat) (st : R3S) : StepRes :=
  if typ = 1 ∧ block.getD 2 0 = 0x7a then r3Dispatch cfg typ block st
  else if typ = 1 ∧ block.getD 2 0 ≠ 0x74 then .bailNow st
  else r3Dispatch cfg typ block st

/-- One pass of the file-header loop: read a 32-byte header block, bail out
at end of file, abort on a read error, then process the block. -/
def r3HeaderStep (cfg : R3Cfg) (typ : Nat) (st0 : R3S) : StepRes :=
  let (block, got, st) := doRead st0 32
  if st.s.eof then .bailNow st
  else if got < 32 then .stop st.evs
  else r3PostRead cfg typ block st

/-- BailOut (rar2john.c:659-669): when a candidate was buffered, append the
gecos accumulator (strncat bound `LINE_BUFFER_SIZE - best_len - 1`,
wrapping like the size_t expression) and write the record with one puts
call.  Diagnostics go to stderr. -/
def bailOut (st : R3S) : List Ev :=
  match st.best with
  | some b =>
    if b ≠ [] then
      let bound : Nat :=
        if st.bestLen + 1 ≤ LINE_BUFFER_SIZE then LINE_BUFFER_SIZE - st.bestLen - 1
        else 2 ^ 64
      st.evs ++ [Ev.write (b ++ st.gecos.take bound ++ [nl])]
    else st.evs
  | none => st.evs

/-- The file-header loop, with fuel (each iteration either consumes at least
32 bytes or terminates, so `data.length + 2` fuel is never exhausted). -/
def r3Loop (cfg : R3Cfg) (typ : Nat) : Nat → R3S → List Ev
  | 0, st => st.evs
  | fuel + 1, st =>
    match r3HeaderStep cfg typ st with
    | .cont st2 => r3Loop cfg typ fuel st2
    | .bailNow st2 => bailOut st2
    | .stop evs => evs

/-- The RAR3 marker block. -/
def RAR3_MAGIC : List Nat := [0x52, 0x61, 0x72, 0x21, 0x1a, 0x07, 0x00]

/-- The pre-1.5 RAR marker. -/
def RAR_OLD_MAGIC : List Nat := [0x52, 0x45, 0x7e, 0x5e]

/-- process_file (rar2john.c:193-677) on an archive that is dispatched by
magic: marker check, archive-header validation, mode selection from flag
0x0080, comment-region skip, then the file-header loop.  Inputs that do not
carry the RAR3 magic are handed to the SFX/RAR5 dispatch path, which is
outside the RAR3 parser and marked by a `dispatched` event. -/
def rar3Run (cfg : R3Cfg) (data : List Nat) : List Ev :=
  let s0 : RStream := { data := data, pos := 0, eof := false }
  let (marker, got, s1) := fread s0 7
  let evs0 := [Ev.read 0 7 got]
  if got < 7 then evs0
  else if marker.take 4 = RAR_OLD_MAGIC then evs0
  else if marker ≠ RAR3_MAGIC then evs0 ++ [Ev.dispatched]
  else
    let (ah, got2, s2) := fread s1 13
    let evs1 := evs0 ++ [Ev.read 7 13 got2]
    if got2 < 13 then evs1
    else if ah.getD 2 0 ≠ 0x73 then evs1
    else
      let flags := le16 ah 3
      let typ := if flags &&& 0x80 ≠ 0 then 0 else 1
      let headSize := le16 ah 5
      let st0 : R3S := { s := s2, bp := sizeMax cfg.szT, bu := sizeMax cfg.szT,
                         bm := 0, best := none, bestLen := 0, gecos := [],
                         gecosLen := 0, evs := evs1 }
      let st1 := if 13 < headSize then doSeekCur st0 (headSize - 13) else st0
      r3Loop cfg typ (data.length + 2) st1

/-! ## RAR5 -/

/-- Modelled from the spec: the 16-byte RAR5 salt size (`SIZE_SALT50` is
declared in rar2john.h, which is not part of this repository). -/
def SIZE_SALT50 : Nat := 16

/-- Modelled from the spec: the 16-byte RAR5 initialization vector size. -/
def SIZE_INITV : Nat := 16

/-- Modelled from the spec: the 12-byte password-check size. -/
def SIZE_PSWCHECK : Nat := 12

/-- Modelled from the spec: the 4-byte SHA-256-truncation checksum size. -/
def SIZE_PSWCHECK_CSUM : Nat := 4

/-- Modelled from the spec: the one supported crypt-version (versions above
it are "unknown RAR5 crypt-version" and rejected). -/
def CRYPT_VERSION : Nat := 0

/-- Modelled from the spec: the supported maximum of the log2 iteration
count, 24. -/
def CRYPT5_KDF_LG2_COUNT_MAX : Nat := 24

/-- Modelled from the spec: RAR5 header types main 1, file 2, service 3,
crypt 4, end-of-archive 5. -/
def HEAD_MAIN : Nat := 1

/-- Modelled from the spec: the file header type. -/
def HEAD_FILE : Nat := 2

/-- Modelled from the spec: the service header type. -/
def HEAD_SERVICE : Nat := 3

/-- Modelled from the spec: the crypt (encrypted-headers) header type. -/
def HEAD_CRYPT : Nat := 4

/-- Modelled from the spec: the end-of-archive header type. -/
def HEAD_ENDARC : Nat := 5

/-- Modelled from the spec: header flag 0x01, extra area present. -/
def HFL_EXTRA : Nat := 1

/-- Modelled from the spec: header flag 0x02, data area present. -/
def HFL_DATA : Nat := 2

/-- Modelled from the spec: crypt-header flag `pswcheck` (0x01). -/
def CHFL_CRYPT_PSWCHECK : Nat := 1

/-- Modelled from the spec: the crypt extra-record field type (1). -/
def FHEXTRA_CRYPT : Nat := 1

/-- Modelled from the spec: the extra-record `pswcheck` flag (0x01). -/
def FHEXTRA_CRYPT_PSWCHECK : Nat := 1

/-- Modelled from the spec (RAR5 format): file flag, modification time
present. -/
def FHFL_UTIME : Nat := 2

/-- Modelled from the spec (RAR5 format): file flag, CRC32 present. -/
def FHFL_CRC32 : Nat := 4

/-- Modelled from the spec (RAR5 format): main-header flag, volume number
present. -/
def MHFL_VOLNUMBER : Nat := 2

/-- The RAR5 marker block. -/
def RAR5_MAGIC : List Nat := [0x52, 0x61, 0x72, 0x21, 0x1a, 0x07, 0x01, 0x00]

/-- read_uint32 (rar2john.c:697-709): fails when fewer than 4 bytes could
be read; on success bumps the caller's bytes-read counter by 4. -/
def read_uint32 (s : RStream) (br : Nat) : Option (Nat × RStream × Nat) :=
  let (b, got, s2) := fread s 4
  if got < 4 then none
  else some (le32 b 0, s2, br + 4)

/-- read_uint8 (rar2john.c:710-717). -/
def read_uint8 (s : RStream) (br : Nat) : Option (Nat × RStream × Nat) :=
  let (b, got, s2) := fread s 1
  if got < 1 then none
  else some (b.getD 0 0, s2, br + 1)

/-- read_buf (rar2john.c:718-723): `fread(cp, 1, len, fp)` fails only when
it yields zero bytes; otherwise the function reports the full `len` as read
and bumps the bytes-read counter by `len`, even when fewer bytes arrived
(the unread tail of the caller's buffer keeps its previous content).
Returns (C return value, buffer, stream, bytes-read counter). -/
def read_buf (s : RStream) (cp : List Nat) (len : Nat) (br : Nat) :
    Nat × List Nat × RStream × Nat :=
  let (b, got, s2) := fread s len
  if got < 1 then (0, cp, s2, br)
  else (len, b ++ cp.drop got, s2, br + len)

/-- The body of read_vuint's 10-iteration loop; accumulation is uint64. -/
def read_vuint_go : Nat → RStream → Nat → Nat → Nat → Option (Nat × Nat × RStream)
  | 0, _, _, _, _ => none
  | fuel + 1, s, n, shift, cnt =>
    let (b, got, s2) := fread s 1
    if got < 1 then none
    else
      let c := b.getD 0 0
      let n2 := (n + (c &&& 0x7f) * 2 ^ shift) % 2 ^ 64
      if c &&& 0x80 = 0 then some (n2, cnt + 1, s2)
      else read_vuint_go fuel s2 n2 (shift + 7) (cnt + 1)

/-- read_vuint (rar2john.c:724-741): a little-endian base-128 varint of at
most 10 bytes; returns (value, width, stream, bytes-read counter). -/
def read_vuint (s : RStream) (br : Nat) : Option (Nat × Nat × RStream × Nat) :=
  match read_vuint_go 10 s 0 0 0 with
  | none => none
  | some (n, len, s2) => some (n, len, s2, br + len)

/-- A conditionally-present varint field (`if (flags & bit) read_vuint`). -/
def readOptVuint (cond : Bool) (s : RStream) (br : Nat) : Option (Nat × RStream × Nat) :=
  if cond then
    match read_vuint s br with
    | none => none
    | some (v, _, s2, br2) => some (v, s2, br2)
  else some (0, s, br)

/-- The RAR5 parser's file-scoped globals (rar2john.c:685-688); the arrays
are zero-initialized. -/
structure R5State where
  Encrypted : Bool
  PswCheck : List Nat
  rar5_interations : Nat
  UsePswCheck : Bool
  rar5_salt : List Nat
  deriving DecidableEq, Repr

/-- The globals at program start. -/
def r5Init : R5State :=
  { Encrypted := false, PswCheck := List.replicate SIZE_PSWCHECK 0,
    rar5_interations := 0, UsePswCheck := false,
    rar5_salt := List.replicate SIZE_SALT50 0 }

/-- What the RAR5 path writes to stdout: a hash record (salt, log2 count,
IV, password-check — the textual assembly by the external base-64/hex
formatter is abstracted to its fields) or a stray printf diagnostic. -/
inductive R5Out where
  | record (salt : List Nat) (iter : Nat) (iv : List Nat) (psw : List Nat)
  | diag (msg : String)
  deriving DecidableEq, Repr

/-- Whether an output is a hash record. -/
def isR5Record : R5Out → Bool
  | .record _ _ _ _ => true
  | _ => false

/-- The hash records among a RAR5 run's stdout outputs. -/
def rar5Records (out : List R5Out) : List R5Out := out.filter isR5Record

/-- Two's-complement reinterpretation of an integer as a 32-bit C int (the
`bytes_left` arithmetic of ProcessExtra50 mixes int and uint32). -/
def toInt32 (z : Int) : Int :=
  let m := z % 4294967296
  if m < 2147483648 then m else m - 4294967296

/-- The body of ProcessExtra50's `while (1)` loop (rar2john.c:756-791).
Each iteration reads the record's size and type varints — and nothing else
unless the record is a crypt record: the loop does not advance past the
record's declared payload.  Returns (globals, stream, outputs, found
increment).  Local buffers (InitV) start as zeros, modelling uninitialized
memory. -/
def processExtra50_go (HeaderType : Nat) :
    Nat → RStream → R5State → Int → Nat → R5State × RStream × List R5Out × Nat
  | 0, s, st, _, _ => (st, s, [], 0)
  | fuel + 1, s, st, bytes_left, br =>
    match read_vuint s br with
    | none => (st, s, [], 0)
    | some (FieldSize, len, s, br) =>
      if 3 < len then (st, s, [], 0)
      else
        let bytes_left := toInt32 (bytes_left - len)
        let bytes_left := toInt32 (bytes_left - (FieldSize % 4294967296 : Nat))
        if bytes_left < 0 then (st, s, [], 0)
        else
          match read_vuint s br with
          | none => (st, s, [], 0)
          | some (FieldType, _, s, br) =>
            if (HeaderType = HEAD_FILE ∨ HeaderType = HEAD_SERVICE) ∧
                FieldType = FHEXTRA_CRYPT then
              match read_vuint s br with
              | none => (st, s, [], 0)
              | some (_, _, s, br) =>
                match read_vuint s br with
                | none => (st, s, [], 0)
                | some (Flags, _, s, br) =>
                  if Flags &&& FHEXTRA_CRYPT_PSWCHECK = 0 then (st, s, [], 0)
                  else
                    match read_uint8 s br with
                    | none => (st, s, [], 0)
                    | some (Lg2Count, s, br) =>
                      if CRYPT5_KDF_LG2_COUNT_MAX ≤ Lg2Count then (st, s, [], 0)
                      else
                        let (r1, salt2, s, br) := read_buf s st.rar5_salt SIZE_SALT50 br
                        let st := { st with rar5_salt := salt2 }
                        if r1 = 0 then (st, s, [], 0)
                        else
                          let (r2, InitV, s, br) :=
                            read_buf s (List.replicate SIZE_INITV 0) SIZE_INITV br
                          if r2 = 0 then (st, s, [], 0)
                          else
                            let (r3, psw2, s, _) := read_buf s st.PswCheck SIZE_PSWCHECK br
                            let st := { st with PswCheck := psw2 }
                            if r3 = 0 then (st, s, [], 0)
                            else
                              (st, s,
                               [R5Out.record st.rar5_salt Lg2Count InitV st.PswCheck], 1)
            else processExtra50_go HeaderType fuel s st bytes_left br

/-- ProcessExtra50 (rar2john.c:747-793): `bytes_left` starts as
`(int)extra_size`; every iteration shrinks it by at least one, so the fuel
below is never exhausted on the inputs considered. -/
def ProcessExtra50 (s : RStream) (st : R5State) (extra_size : Nat) (HeaderType : Nat) :
    R5State × RStream × List R5Out × Nat :=
  processExtra50_go HeaderType ((toInt32 extra_size).toNat + 2) s st (toInt32 extra_size) 0

/-- The HEAD_CRYPT branch of read_rar5_header (rar2john.c:840-861),
parameterized by the external SHA-256.  The final component is true exactly
when the branch falls through to the common
`return CurBlockPos+HeadSize+data_size` (it always sets `Encrypted`
beforehand); `false` is an early `return 0`. -/
def headCryptBody (sha : List Nat → List Nat) (st : R5State) (s : RStream) (br : Nat) :
    R5State × RStream × List R5Out × Bool :=
  match read_vuint s br with
  | none => (st, s, [], false)
  | some (crypt_version, _, s, br) =>
    if CRYPT_VERSION < crypt_version then
      (st, s, [R5Out.diag "bad rar crypt version byte"], false)
    else
      match read_vuint s br with
      | none => (st, s, [], false)
      | some (enc_flags, _, s, br) =>
        let st := { st with UsePswCheck := decide (enc_flags &&& CHFL_CRYPT_PSWCHECK ≠ 0) }
        match read_uint8 s br with
        | none => (st, s, [], false)
        | some (lg_2count, s, br) =>
          if CRYPT5_KDF_LG2_COUNT_MAX < lg_2count then
            (st, s, [R5Out.diag "rar PBKDF2 iteration count too large"], false)
          else
            let st := { st with rar5_interations := lg_2count }
            let rbS := read_buf s st.rar5_salt SIZE_SALT50 br
            let st := { st with rar5_salt := rbS.2.1 }
            let s := rbS.2.2.1
            let br := rbS.2.2.2
            if rbS.1 = 0 then (st, s, [], false)
            else if st.UsePswCheck then
              let rbP := read_buf s st.PswCheck SIZE_PSWCHECK br
              let st := { st with PswCheck := rbP.2.1 }
              let s := rbP.2.2.1
              let br := rbP.2.2.2
              if rbP.1 = 0 then (st, s, [], false)
              else
                let rbC := read_buf s (List.replicate SIZE_PSWCHECK_CSUM 0)
                  SIZE_PSWCHECK_CSUM br
                let chksum := rbC.2.1
                let s := rbC.2.2.1
                if rbC.1 = 0 then (st, s, [], false)
                else
                  ({ st with
                      UsePswCheck := decide ((sha st.PswCheck).take SIZE_PSWCHECK_CSUM = chksum),
                      Encrypted := true }, s, [], true)
            else ({ st with Encrypted := true }, s, [], true)

/-- The HEAD_FILE / HEAD_SERVICE branch of read_rar5_header
(rar2john.c:867-892): skips the file metadata and the name, then hands any
extra area to ProcessExtra50 (whose return value the caller ignores). -/
def fileServiceBranch (st : R5State) (s : RStream) (br : Nat)
    (extra_size HeadSize data_size CurBlockPos header_type : Nat) :
    R5State × RStream × List R5Out × Nat × Nat :=
  match read_vuint s br with
  | none => (st, s, [], 0, 0)
  | some (FileFlags, _, s, br) =>
    match read_vuint s br with
    | none => (st, s, [], 0, 0)
    | some (_, _, s, br) =>
      match read_vuint s br with
      | none => (st, s, [], 0, 0)
      | some (_, _, s, br) =>
        match (if FileFlags &&& FHFL_UTIME ≠ 0 then read_uint32 s br else some (0, s, br)) with
        | none => (st, s, [], 0, 0)
        | some (_, s, br) =>
          match (if FileFlags &&& FHFL_CRC32 ≠ 0 then read_uint32 s br else some (0, s, br)) with
          | none => (st, s, [], 0, 0)
          | some (_, s, br) =>
            match read_vuint s br with
            | none => (st, s, [], 0, 0)
            | some (_, _, s, br) =>
              match read_vuint s br with
              | none => (st, s, [], 0, 0)
              | some (_, _, s, br) =>
                match read_vuint s br with
                | none => (st, s, [], 0, 0)
                | some (NameSize, _, s, _) =>
                  let s := fseekCur s NameSize
                  if extra_size ≠ 0 then
                    match ProcessExtra50 s st extra_size header_type with
                    | (st2, s2, out, fd) =>
                      (st2, s2, out, fd, CurBlockPos + HeadSize + data_size)
                  else (st, s, [], 0, CurBlockPos + HeadSize + data_size)

/-- read_rar5_header (rar2john.c:799-897): if the encrypted-headers latch is
set, the next 16 bytes are taken as the header IV and one record is emitted
from the saved globals (read_buf reports the full SIZE_INITV whenever at
least one byte arrives), and 0 is returned to stop the block loop.
Otherwise the common header fields are read and the block is dispatched on
its type.  Returns (globals, stream, outputs, found increment, next block
position — 0 stops the loop). -/
def read_rar5_header (sha : List Nat → List Nat) (st : R5State) (s : RStream)
    (CurBlockPos : Nat) : R5State × RStream × List R5Out × Nat × Nat :=
  if st.Encrypted then
    let rb := read_buf s (List.replicate SIZE_INITV 0) SIZE_INITV 0
    let s2 := rb.2.2.1
    if rb.1 ≠ SIZE_INITV then (st, s2, [], 0, 0)
    else
      (st, s2, [R5Out.record st.rar5_salt st.rar5_interations rb.2.1 st.PswCheck], 1, 0)
  else
    match read_uint32 s 0 with
    | none => (st, s, [], 0, 0)
    | some (_, s, br) =>
      match read_vuint s br with
      | none => (st, s, [], 0, 0)
      | some (block_size, sizeof_vint, s, br) =>
        let HeadSize := block_size + 4 + sizeof_vint
        match read_uint8 s br with
        | none => (st, s, [], 0, 0)
        | some (header_type, s, br) =>
          match read_vuint s br with
          | none => (st, s, [], 0, 0)
          | some (flags, _, s, br) =>
            match readOptVuint (decide (flags &&& HFL_EXTRA ≠ 0)) s br with
            | none => (st, s, [], 0, 0)
            | some (extra_size, s, br) =>
              match readOptVuint (decide (flags &&& HFL_DATA ≠ 0)) s br with
              | none => (st, s, [], 0, 0)
              | some (data_size, s, br) =>
                if header_type = HEAD_CRYPT then
                  match headCryptBody sha st s br with
                  | (st2, s2, out, ok) =>
                    if ok then (st2, s2, out, 0, CurBlockPos + HeadSize + data_size)
                    else (st2, s2, out, 0, 0)
                else if header_type = HEAD_MAIN then
                  match read_vuint s br with
                  | none => (st, s, [], 0, 0)
                  | some (ArcFlags, _, s, br) =>
                    match readOptVuint (decide (ArcFlags &&& MHFL_VOLNUMBER ≠ 0)) s br with
                    | none => (st, s, [], 0, 0)
                    | some (_, s, _) => (st, s, [], 0, CurBlockPos + HeadSize + data_size)
                else if header_type = HEAD_FILE ∨ header_type = HEAD_SERVICE then
                  fileServiceBranch st s br extra_size HeadSize data_size CurBlockPos
                    header_type
                else if header_type = HEAD_ENDARC then (st, s, [], 0, 0)
                else (st, s, [], 0, CurBlockPos + HeadSize + data_size)

/-- The block loop of process_file5 (rar2john.c:941-950): read a header at
the current position, stop when it returns 0, otherwise seek to the
returned next-block position.  Returns (outputs, found count). -/
def r5Loop (sha : List Nat → List Nat) : Nat → R5State → RStream → List R5Out × Nat
  | 0, _, _ => ([], 0)
  | fuel + 1, st, s =>
    match read_rar5_header sha st s s.pos with
    | (st2, s2, out, fd, next) =>
      if next = 0 then (out, fd)
      else
        let (out2, fd2) := r5Loop sha fuel st2 (fseekSet s2 next)
        (out ++ out2, fd + fd2)

/-- process_file5 (rar2john.c:900-961) on a fresh process (globals in their
initial state): magic check, then the block loop.  The MZ/SFX scan is
outside the verified claims and yields no output here. -/
def process_file5 (sha : List Nat → List Nat) (data : List Nat) : List R5Out × Nat :=
  let s0 : RStream := { data := data, pos := 0, eof := false }
  let (magic, got, s1) := fread s0 8
  if got < 8 then ([], 0)
  else if magic.take 2 = [0x4d, 0x5a] then ([], 0)
  else if magic ≠ RAR5_MAGIC then ([], 0)
  else r5Loop sha (data.length + 2) r5Init s1

/-- Modelled from the spec: the extra-area processor of §4.D.i, which
"iterates TLV records until the declared extra-area bytes are exhausted",
advancing past each record's declared payload (`field-size` covers the type
field and the payload, but not the size field itself); on a file/service
block a crypt record is parsed (enc-version, flags — `pswcheck` required —
log2-count below the supported maximum, 16-byte salt, 16-byte IV, 12-byte
password-check) and emitted, halting extra processing; underflow of the
bytes-left counter is a fatal parse error. -/
def processExtra50Spec : Nat → RStream → Int → Option R5Out
  | 0, _, _ => none
  | fuel + 1, s, bytes_left =>
    if bytes_left ≤ 0 then none
    else
      match read_vuint s 0 with
      | none => none
      | some (FieldSize, len, s, _) =>
        if 3 < len then none
        else if (bytes_left - len - FieldSize : Int) < 0 then none
        else
          match read_vuint s 0 with
          | none => none
          | some (FieldType, tlen, s, _) =>
            if FieldType = FHEXTRA_CRYPT then
              match read_vuint s 0 with
              | none => none
              | some (_, _, s, _) =>
                match read_vuint s 0 with
                | none => none
                | some (Flags, _, s, _) =>
                  if Flags &&& FHEXTRA_CRYPT_PSWCHECK = 0 then none
                  else
                    match read_uint8 s 0 with
                    | none => none
                    | some (lg2, s, _) =>
                      if CRYPT5_KDF_LG2_COUNT_MAX ≤ lg2 then none
                      else
                        let (r1, salt, s, _) :=
                          read_buf s (List.replicate SIZE_SALT50 0) SIZE_SALT50 0
                        if r1 = 0 then none
                        else
                          let (r2, iv, s, _) :=
                            read_buf s (List.replicate SIZE_INITV 0) SIZE_INITV 0
                          if r2 = 0 then none
                          else
                            let (r3, psw, _, _) :=
                              read_buf s (List.replicate SIZE_PSWCHECK 0) SIZE_PSWCHECK 0
                            if r3 = 0 then none
                            else some (R5Out.record salt lg2 iv psw)
            else
              processExtra50Spec fuel (fseekCur s (FieldSize - tlen))
                (bytes_left - len - FieldSize)

/-! ## Concrete archives used by the counterexamples and witnesses -/

/-- The last 24 bytes of a file of at least 24 bytes, as the mode-0 path
reads them. -/
def tail24 (data : List Nat) : List Nat := (data.drop (data.length - 24)).take 24

/-- A configuration for `a.rar` on a 64-bit build, non-verbose. -/
def cfgHP : R3Cfg :=
  { base := chars "a.rar", aname := chars "a.rar", verbose := false, szT := 8,
    decodeName := fun l => l }

/-- The same file on a 32-bit build (`sizeof(size_t) = 4`), non-verbose. -/
def cfg32 : R3Cfg := { cfgHP with szT := 4 }

/-- The 32-bit build with `-v`. -/
def cfg32v : R3Cfg := { cfg32 with verbose := true }

/-- A placeholder for the external SHA-256 in concrete evaluations. -/
def shaZ : List Nat → List Nat := fun _ => List.replicate 32 0

/-- The 8-byte salt of the sample -hp archive. -/
def c3salt : List Nat := [1, 2, 3, 4, 5, 6, 7, 8]

/-- The 16 known-plaintext bytes of the sample -hp archive. -/
def c3cipher : List Nat := [9, 10, 11, 12, 13, 14, 15, 16, 17, 18, 19, 20, 21, 22, 23, 24]

/-- A RAR3 archive header with the headers-encrypted bit (0x0080) set and
head size 13. -/
def archdrHP : List Nat := [0, 0, 0x73, 0x80, 0, 13, 0, 0, 0, 0, 0, 0, 0]

/-- A RAR3 archive header with clear flags (mode 1) and head size 13. -/
def archdrP : List Nat := [0, 0, 0x73, 0, 0, 13, 0, 0, 0, 0, 0, 0, 0]

/-- The sample -hp archive up to its 24-byte tail: magic, archive header,
and 8 filler bytes of the encrypted region. -/
def c3pre : List Nat := RAR3_MAGIC ++ archdrHP ++ List.replicate 8 0x41

/-- The complete 52-byte sample -hp archive. -/
def c3data : List Nat := c3pre ++ c3salt ++ c3cipher

/-- The one record rar2john emits for `c3data`. -/
def c3record : List Char :=
  chars "a.rar:$RAR3$*0*0102030405060708*090a0b0c0d0e0f101112131415161718:0::::a.rar"

/-- A 32-byte header block whose type tag is 0x7a (comment) but whose fields
parse as an encrypted stored file entry: flags 0x8004, head size 33, packed
and unpacked size 4, CRC de ad be ef, method 0x30, name length 1. -/
def c6block : List Nat :=
  [0, 0, 0x7a, 0x04, 0x80, 33, 0, 4, 0, 0, 0, 4, 0, 0, 0, 0,
   0xde, 0xad, 0xbe, 0xef, 0, 0, 0, 0, 0, 0x30, 1, 0, 0, 0, 0, 0]

/-- A mode-1 archive whose only header block carries tag 0x7a, followed by
its 1-byte file name `b` and 4 bytes of ciphertext. -/
def c6data : List Nat :=
  RAR3_MAGIC ++ archdrP ++ c6block ++ [0x62] ++ [0xaa, 0xbb, 0xcc, 0xdd]

/-- The record rar2john emits for `c6data`, built from the 0x7a block. -/
def c6record : List Char :=
  chars "a.rar:$RAR3$*1*0000000000000000*deadbeef*4*4*1*aabbccdd*30:1::b "

/-- A 32-byte file header with the 64-bit size-extension flag: flags 0x8104,
head size 41, low sizes 4/4, CRC 01 02 03 04, method 0x30, name length 1. -/
def c5block : List Nat :=
  [0, 0, 0x74, 0x04, 0x81, 41, 0, 4, 0, 0, 0, 4, 0, 0, 0, 0,
   1, 2, 3, 4, 0, 0, 0, 0, 0, 0x30, 1, 0, 0, 0, 0, 0]

/-- A mode-1 archive whose file header carries flag 0x0100: the header block
is followed by the two extra 32-bit size words (both nonzero, so the true
sizes exceed 32 bits), the 1-byte name `c`, and 4 bytes of ciphertext. -/
def c5data : List Nat :=
  RAR3_MAGIC ++ archdrP ++ c5block ++
    [1, 0, 0, 0] ++ [1, 0, 0, 0] ++ [0x63] ++ [0x11, 0x22, 0x33, 0x44]

/-- The record the non-verbose 32-bit run emits for `c5data` (sizes
truncated to their low 32 bits). -/
def c5record : List Char :=
  chars "a.rar:$RAR3$*1*0000000000000000*01020304*4*4*1*11223344*30:1::c "

/-- The 16-byte salt of the sample RAR5 crypt records. -/
def c2salt : List Nat := List.range 16

/-- The 16-byte IV of the sample RAR5 crypt records. -/
def c2iv : List Nat := (List.range 16).map fun i => 16 + i

/-- The 12-byte password-check of the sample RAR5 crypt records. -/
def c2psw : List Nat := (List.range 12).map fun i => 32 + i

/-- A non-crypt extra record: field size 5, field type 3, and a 4-byte
payload that does not itself parse as a record. -/
def c2tlv1 : List Nat := [0x05, 0x03, 0x80, 0x80, 0x80, 0x00]

/-- A well-formed crypt extra record: field size 48, field type 1 (crypt),
enc-version 0, flags 1 (pswcheck), log2 count 15, then salt, IV and
password-check. -/
def c2tlv2 : List Nat := [0x30, 0x01, 0x00, 0x01, 0x0f] ++ c2salt ++ c2iv ++ c2psw

/-- A 55-byte extra area: the non-crypt record first, the crypt record
second. -/
def c2extra : List Nat := c2tlv1 ++ c2tlv2

/-- A well-formed 86-byte RAR5 archive: magic, main header, then one file
header (name `a`, no data) whose extra area is `c2extra`; its extra area
starts at offset 31. -/
def c2bytes : List Nat :=
  RAR5_MAGIC ++ [0, 0, 0, 0, 3, 1, 0, 0] ++
    [0, 0, 0, 0, 0x41, 2, 1, 0x37, 0, 0, 0, 0, 0, 1, 0x61] ++ c2extra

/-- The body of a RAR5 crypt header block: version 0, encryption flags 0
(pswcheck clear), log2 count 24, 16-byte salt. -/
def c9cryptbytes : List Nat := [0, 0, 24] ++ c2salt

/-- The same crypt header body with version 0 replaced by the unsupported
version 1. -/
def c9cryptbytesV1 : List Nat := [1, 0, 24] ++ c2salt

/-- A crypt extra record with log2 count `lg`, otherwise like `c2tlv2`. -/
def c9tlv (lg : Nat) : List Nat := [0x30, 0x01, 0x00, 0x01, lg] ++ c2salt ++ c2iv ++ c2psw

/-- A RAR5 archive holding one crypt header block with pswcheck clear and
log2 count 24, followed by 16 bytes that the next header read takes as the
headers IV. -/
def c8file : List Nat :=
  RAR5_MAGIC ++ [0, 0, 0, 0, 21, 4, 0] ++ [0, 0, 24] ++ c2salt ++ c2iv

/-! ## Helper lemmas -/

theorem hexNib_ne_nl (n : Nat) : hexNib n ≠ nl := by
  unfold hexNib
  rcases Nat.lt_or_ge n 16 with h | h
  · have h16 : n < itoa16.length := by simpa [itoa16] using h
    have hm : itoa16.getD n '0' ∈ itoa16 := by
      rw [List.getD_eq_getElem itoa16 '0' h16]
      exact List.getElem_mem h16
    intro he
    rw [he] at hm
    revert hm
    decide
  · have h16 : itoa16.length ≤ n := by simpa [itoa16] using h
    rw [List.getD_eq_default itoa16 '0' h16]
    decide

theorem nl_not_mem_hexByte (b : Nat) : nl ∉ hexByte b := by
  simp only [hexByte, List.mem_cons, List.not_mem_nil, or_false]
  intro h
  rcases h with h | h
  · exact hexNib_ne_nl _ h.symm
  · exact hexNib_ne_nl _ h.symm

theorem nl_not_mem_hexBytes (l : List Nat) : nl ∉ hexBytes l := by
  induction l with
  | nil => simp [hexBytes]
  | cons b bs ih =>
    simp only [hexBytes, List.map_cons, List.flatten_cons, List.mem_append]
    intro h
    rcases h with h | h
    · exact nl_not_mem_hexByte b h
    · exact ih (by simpa [hexBytes] using h)

theorem splitLines_ne_nil (l : List Char) : splitLines l ≠ [] := by
  induction l with
  | nil => simp [splitLines]
  | cons c cs ih =>
    simp only [splitLines]
    split
    · simp
    · split <;> simp

theorem splitLines_append (xs ys : List Char) (h : nl ∉ xs) :
    splitLines (xs ++ ys) = (xs ++ (splitLines ys).headI) :: (splitLines ys).tail := by
  induction xs with
  | nil =>
    simp only [List.nil_append, List.headI]
    cases hy : splitLines ys with
    | nil => exact absurd hy (splitLines_ne_nil ys)
    | cons z zs => simp
  | cons c cs ih =>
    have hc : ¬(c = nl) := fun e => h (by simp [e])
    have hcs : nl ∉ cs := fun m => h (List.mem_cons_of_mem c m)
    simp only [List.cons_append, splitLines, if_neg hc, List.append_eq]
    rw [ih hcs]

theorem writesOf_append (a b : List Ev) : writesOf (a ++ b) = writesOf a ++ writesOf b :=
  List.filterMap_append a b _

theorem stdoutOf_append (a b : List Ev) : stdoutOf (a ++ b) = stdoutOf a ++ stdoutOf b := by
  simp [stdoutOf, writesOf_append]

theorem writesOf_hexWrites (l : List Nat) :
    writesOf (l.map fun b => Ev.write (hexByte b)) = l.map hexByte := by
  induction l with
  | nil => rfl
  | cons b bs ih => simp [writesOf, List.filterMap_cons] at *; exact ih

theorem stdoutOf_hexWrites (l : List Nat) :
    stdoutOf (l.map fun b => Ev.write (hexByte b)) = hexBytes l := by
  simp [stdoutOf, writesOf_hexWrites, hexBytes]

theorem mode0_ev (cfg : R3Cfg) (st : R3S) (h24 : 24 ≤ st.s.data.length) :
    mode0Emit cfg st =
      st.evs ++ [Ev.write (cfg.base ++ chars ":$RAR3$*0*")] ++
        [Ev.seek (st.s.data.length - 24)] ++
        [Ev.read (st.s.data.length - 24) 24 24] ++
        ((tail24 st.s.data).take 8).map (fun b => Ev.write (hexByte b)) ++
        [Ev.write (chars "*")] ++
        (((tail24 st.s.data).drop 8).take 16).map (fun b => Ev.write (hexByte b)) ++
        [Ev.write (chars ":0::::" ++ cfg.aname ++ [nl])] := by
  have hlen : ((st.s.data.drop (st.s.data.length - 24)).take 24).length = 24 := by
    simp only [List.length_take, List.length_drop]
    omega
  unfold mode0Emit doSeekEnd24 fseekEnd24 doRead fread
  simp only [if_pos h24, hlen, tail24]
  simp

theorem mode0_records (cfg : R3Cfg) (st : R3S) (h0 : stdoutOf st.evs = [])
    (hb : nl ∉ cfg.base) (ha : nl ∉ cfg.aname) (h24 : 24 ≤ st.s.data.length) :
    rar3Records (mode0Emit cfg st) =
      [cfg.base ++ chars ":$RAR3$*0*" ++ hexBytes ((tail24 st.s.data).take 8) ++
        chars "*" ++ hexBytes ((tail24 st.s.data).drop 8) ++ chars ":0::::" ++
        cfg.aname] := by
  have hlen24 : (tail24 st.s.data).length = 24 := by
    simp only [tail24, List.length_take, List.length_drop]
    omega
  have ht : ((tail24 st.s.data).drop 8).take 16 = (tail24 st.s.data).drop 8 :=
    List.take_of_length_le (by simp [hlen24])
  rw [mode0_ev cfg st h24]
  unfold rar3Records
  simp only [stdoutOf_append, stdoutOf_hexWrites, h0, ht]
  have h1 : stdoutOf [Ev.write (cfg.base ++ chars ":$RAR3$*0*")] =
      cfg.base ++ chars ":$RAR3$*0*" := by simp [stdoutOf, writesOf]
  have h2 : stdoutOf [Ev.seek (st.s.data.length - 24)] = [] := by simp [stdoutOf, writesOf]
  have h3 : stdoutOf [Ev.read (st.s.data.length - 24) 24 24] = [] := by
    simp [stdoutOf, writesOf]
  have h4 : stdoutOf [Ev.write (chars "*")] = chars "*" := by simp [stdoutOf, writesOf]
  have h5 : stdoutOf [Ev.write (chars ":0::::" ++ cfg.aname ++ [nl])] =
      chars ":0::::" ++ cfg.aname ++ [nl] := by simp [stdoutOf, writesOf]
  rw [h1, h2, h3, h4, h5]
  have c1 : nl ∉ chars ":$RAR3$*0*" := by decide
  have c2 : nl ∉ chars "*" := by decide
  have c3 : nl ∉ chars ":0::::" := by decide
  simp only [List.nil_append, List.append_nil, List.append_assoc]
  rw [splitLines_append cfg.base _ hb,
    splitLines_append (chars ":$RAR3$*0*") _ c1,
    splitLines_append (hexBytes _) _ (nl_not_mem_hexBytes _),
    splitLines_append (chars "*") _ c2,
    splitLines_append (hexBytes _) _ (nl_not_mem_hexBytes _),
    splitLines_append (chars ":0::::") _ c3,
    splitLines_append cfg.aname _ ha]
  rw [show splitLines [nl] = [[], []] from by decide]
  simp only [List.headI, List.tail_cons, List.append_nil]
  have hX : cfg.base ++
      (chars ":$RAR3$*0*" ++
        (hexBytes ((tail24 st.s.data).take 8) ++
          (chars "*" ++
            (hexBytes ((tail24 st.s.data).drop 8) ++ (chars ":0::::" ++ cfg.aname))))) ≠ [] := by
    intro h
    rcases List.append_eq_nil.1 h with ⟨_, h2⟩
    rcases List.append_eq_nil.1 h2 with ⟨h3, _⟩
    revert h3
    decide
  simp [List.filter, List.isEmpty_eq_false.2 hX]

theorem getD_set_ne (l : List Nat) (n m v d : Nat) (h : n ≠ m) :
    (l.set n v).getD m d = l.getD m d := by
  simp [List.getD, List.getElem?_set_ne h]

theorem hdrFields_set2 (block : List Nat) (v : Nat) :
    hdrFields (block.set 2 v) = hdrFields block := by
  unfold hdrFields le16 le32
  simp only [getD_set_ne block 2 3 v 0 (by decide), getD_set_ne block 2 4 v 0 (by decide),
    getD_set_ne block 2 5 v 0 (by decide), getD_set_ne block 2 6 v 0 (by decide),
    getD_set_ne block 2 7 v 0 (by decide), getD_set_ne block 2 8 v 0 (by decide),
    getD_set_ne block 2 9 v 0 (by decide), getD_set_ne block 2 10 v 0 (by decide),
    getD_set_ne block 2 11 v 0 (by decide), getD_set_ne block 2 12 v 0 (by decide),
    getD_set_ne block 2 13 v 0 (by decide), getD_set_ne block 2 14 v 0 (by decide),
    getD_set_ne block 2 16 v 0 (by decide), getD_set_ne block 2 17 v 0 (by decide),
    getD_set_ne block 2 18 v 0 (by decide), getD_set_ne block 2 19 v 0 (by decide),
    getD_set_ne block 2 25 v 0 (by decide), getD_set_ne block 2 26 v 0 (by decide),
    getD_set_ne block 2 27 v 0 (by decide)]

/-! ## Claim theorems -/

/-- C1: the claim says that on a packed-size tie with both unpacked sizes
at least 8 the incumbent is kept.  The code disagrees: with the incumbent
(pack 1000, unp 10, stored) and a new entry (pack 1000, unp 9, stored) —
both unpacked sizes ≥ 8 — the skip condition is false and the selector
replaces the incumbent by the new entry. -/
theorem C1_counterexample :
    1000 < sizeMax 8 ∧
      selStep 8 { pack := 1000, unp := 10, method := 0x30 }
          { pack := 1000, unp := 9, method := 0x30 } =
        { pack := 1000, unp := 9, method := 0x30 } := by
  decide

/-- C1 amended: on a packed-size tie against an existing incumbent, the new
entry is rejected exactly when either both unpacked sizes are below 8 and
the new one is strictly smaller, or only the incumbent's is at least 8, or
both are at least 8 and the incumbent's is not larger.  In particular a
candidate whose unpacked size is ≥ 8 is preferred over one below 8, but
among two candidates both ≥ 8 the smaller unpacked size wins, and among two
below 8 the larger-or-equal one wins. -/
theorem C1_tie_rule (szT bp bu bm u m : Nat) (h : bp < sizeMax szT) :
    selSkip szT bp bu bm bp u m = true ↔
      ((u < 8 ∧ bu < 8 ∧ u < bu) ∨ (u < 8 ∧ 8 ≤ bu) ∨ (8 ≤ u ∧ 8 ≤ bu ∧ bu ≤ u)) := by
  simp only [selSkip, Bool.and_eq_true, Bool.or_eq_true, decide_eq_true_eq]
  by_cases hb : 0x30 < bm <;> by_cases hm : 0x30 < m <;> simp [hb, hm, h] <;> omega

/-- Witness for `C1_tie_rule` at szT = 8, incumbent (1000, 10, stored), new
entry unp 9. -/
theorem C1_tie_rule_inst :
    selSkip 8 1000 10 0x30 1000 9 0x30 = true ↔
      ((9 < 8 ∧ 10 < 8 ∧ 9 < 10) ∨ (9 < 8 ∧ 8 ≤ 10) ∨ (8 ≤ 9 ∧ 8 ≤ 10 ∧ 10 ≤ 9)) :=
  C1_tie_rule 8 1000 10 0x30 9 0x30 (by decide)

/-- C2: on `c2bytes` — a well-formed RAR5 archive whose single encrypted
file entry carries a crypt extra record with pswcheck, preceded by one
non-crypt extra record — the parser emits no record at all, because
ProcessExtra50 never advances past a record's declared payload: after
reading the first record's size and type it parses the payload bytes as the
next record's size field.  The spec-modelled processor, which skips the
payload, finds the crypt record. -/
theorem C2_extra_payload_bug :
    rar5Records (process_file5 shaZ c2bytes).1 = [] ∧
      processExtra50Spec 57 { data := c2bytes, pos := 31, eof := false } 55 =
        some (R5Out.record c2salt 15 c2iv c2psw) := by
  decide

/-- C3: the claim says no file headers are read from the stream before the
mode-0 record is emitted.  On `c3data` (headers-encrypted flag set), the
trace up to the first stdout write contains a 32-byte read at offset 20 —
the file-header-block read of rar2john.c:308 — and a record is then
emitted; so a file-header block is read first. -/
theorem C3_counterexample :
    ((rar3Run cfgHP c3data).takeWhile fun e => !isWriteEv e).any
        (fun e => decide (e = Ev.read 20 32 32)) = true ∧
      rar3Records (rar3Run cfgHP c3data) = [c3record] := by
  decide

/-- C3 amended: under the headers-encrypted flag the mode-0 emission writes
exactly one record, built from the 8-byte salt and the following 16 bytes
located 24 bytes before end-of-file (first conjunct, for any archive of at
least 24 bytes reaching the emission with nothing yet on stdout) — but only
after a 32-byte file-header-sized block has been read from the stream,
whose success the record requires (the remaining conjuncts: on `c3data` the
parser emits exactly that one record, and the 32-byte read at the
file-header position precedes every write). -/
theorem C3_mode0_emission :
    (∀ (cfg : R3Cfg) (st : R3S), stdoutOf st.evs = [] → nl ∉ cfg.base →
      nl ∉ cfg.aname → 24 ≤ st.s.data.length →
      rar3Records (mode0Emit cfg st) =
        [cfg.base ++ chars ":$RAR3$*0*" ++ hexBytes ((tail24 st.s.data).take 8) ++
          chars "*" ++ hexBytes ((tail24 st.s.data).drop 8) ++ chars ":0::::" ++
          cfg.aname]) ∧
    rar3Records (rar3Run cfgHP c3data) = [c3record] ∧
    ((rar3Run cfgHP c3data).takeWhile fun e => !isWriteEv e).any
      (fun e => decide (e = Ev.read 20 32 32)) = true := by
  refine ⟨mode0_records, ?_, ?_⟩ <;> decide

/-- C4: the claim says every record is fully assembled in memory and
written by a single call.  On `c3data` the mode-0 record is emitted, yet no
single write event carries it (with or without the final newline): the
record reaches the stream in 27 separate write calls. -/
theorem C4_counterexample :
    rar3Records (rar3Run cfgHP c3data) = [c3record] ∧
      (writesOf (rar3Run cfgHP c3data)).all
        (fun w => decide (w ≠ c3record) && decide (w ≠ c3record ++ [nl])) = true := by
  decide

/-- C4 amended: the mode-1 record is assembled in the `best` buffer and
written by one puts call (on `c6data` a single write event is the whole
record plus newline), but the mode-0 record is written piecewise: on
`c3data` its prefix write occurs in the trace strictly before the 24-byte
tail read, so a failure of that read would leave a prefix of the record on
the output stream. -/
theorem C4_write_discipline :
    ((rar3Run cfgHP c3data).takeWhile fun e => decide (e ≠ Ev.read 28 24 24)).any
        (fun e => decide (e = Ev.write (chars "a.rar:$RAR3$*0*"))) = true ∧
      (writesOf (rar3Run cfgHP c6data)).any
        (fun w => decide (w = c6record ++ [nl])) = true := by
  decide

/-- C5: the unsupported-64-bit check (rar2john.c:452-457) sits inside the
`if (verbose)` block, so on a 32-bit build a file-header with flag 0x0100
is rejected only under `-v`: the non-verbose run keeps going with the sizes
truncated to 32 bits and emits a record, while the verbose run on the very
same archive aborts and emits nothing. -/
theorem C5_verbose_gated :
    rar3Records (rar3Run cfg32 c5data) = [c5record] ∧
      rar3Records (rar3Run cfg32v c5data) = [] := by
  decide

/-- C6: the claim says a 0x7a header is skipped by its head-size without
being processed as a file entry.  On `c6data`, whose only header block
carries tag 0x7a, the block is instead run through the file-entry path: its
sizes, CRC, method, name and ciphertext become the emitted record. -/
theorem C6_counterexample :
    rar3Records (rar3Run cfgHP c6data) = [c6record] := by
  decide

/-- C6 amended: in mode 1 a tag that is neither 0x74 nor 0x7a ends parsing;
a 0x74 block is processed as a file entry; and a 0x7a block is not skipped —
it is handled exactly as the same block with tag 0x74, i.e. through the
file-entry path. -/
theorem C6_tag_handling :
    (∀ (cfg : R3Cfg) (block : List Nat) (st : R3S),
        block.getD 2 0 ≠ 0x74 → block.getD 2 0 ≠ 0x7a →
        r3PostRead cfg 1 block st = .bailNow st) ∧
    (∀ (cfg : R3Cfg) (block : List Nat) (st : R3S),
        block.getD 2 0 = 0x74 →
        r3PostRead cfg 1 block st = mode1Body cfg 1 (hdrFields block) st) ∧
    (∀ (cfg : R3Cfg) (block : List Nat) (st : R3S),
        block.getD 2 0 = 0x7a →
        r3PostRead cfg 1 block st = r3PostRead cfg 1 (block.set 2 0x74) st) := by
  refine ⟨?_, ?_, ?_⟩
  · intro cfg block st h74 h7a
    unfold r3PostRead
    rw [if_neg fun hx => h7a hx.2, if_pos ⟨rfl, h74⟩]
  · intro cfg block st h74
    unfold r3PostRead r3Dispatch
    rw [if_neg fun hx => by rw [h74] at hx; exact absurd hx.2 (by decide),
      if_neg fun hx => hx.2 h74, if_neg (by decide)]
  · intro cfg block st h7a
    by_cases hlen : 2 < block.length
    · have hset : (block.set 2 0x74).getD 2 0 = 0x74 := by
        simp [List.getD, List.getElem?_set_self, hlen]
      unfold r3PostRead r3Dispatch
      rw [hset, h7a]
      simp only [reduceCtorEq, and_self, and_true, if_true, if_false]
      rw [hdrFields_set2]
      norm_num
    · have hset : block.set 2 0x74 = block := by
        apply List.set_eq_of_length_le
        omega
      rw [hset]

/-- C7: the claimed invariant is over a whole run: once a candidate with
unpacked size ≥ 8 has been admitted, every later admitted candidate has
unp ≥ 8, or strictly smaller pack and unp at or above its method threshold.
The run below breaks it: after (100, 8, stored) is admitted, (50, 2,
stored) is admitted legitimately, and then (50, 3, compressed) is admitted
even though its unpacked size 3 is below 8, its packed size 50 is not
strictly smaller than the incumbent's 50, and 3 is below the compressed
threshold 4. -/
theorem C7_counterexample :
    selRun 8 [{ pack := 100, unp := 8, method := 0x30 }] =
        { pack := 100, unp := 8, method := 0x30 } ∧
      selRun 8 [{ pack := 100, unp := 8, method := 0x30 },
          { pack := 50, unp := 2, method := 0x30 }] =
        { pack := 50, unp := 2, method := 0x30 } ∧
      selRun 8 [{ pack := 100, unp := 8, method := 0x30 },
          { pack := 50, unp := 2, method := 0x30 },
          { pack := 50, unp := 3, method := 0x31 }] =
        { pack := 50, unp := 3, method := 0x31 } := by
  decide

/-- C7 amended (the single-step form holds): whenever the incumbent exists
and has unpacked size ≥ 8, a candidate the selector admits either has
unpacked size ≥ 8 itself, or has strictly smaller packed size than that
incumbent and unpacked size meeting its own method threshold (4 when
compressed, 1 when stored). -/
theorem C7_step_invariant (szT : Nat) (b c : BestSize) (hb : b.pack < sizeMax szT)
    (h8 : 8 ≤ b.unp)
    (hadm : selSkip szT b.pack b.unp b.method c.pack c.unp c.method = false) :
    8 ≤ c.unp ∨ (c.pack < b.pack ∧ (if 0x30 < c.method then 4 else 1) ≤ c.unp) := by
  rw [← Bool.not_eq_true] at hadm
  simp only [selSkip, Bool.and_eq_true, Bool.or_eq_true, decide_eq_true_eq, not_or,
    not_and] at hadm
  by_cases hbm : 0x30 < b.method <;> by_cases hcm : 0x30 < c.method <;>
    simp [hbm, hcm, hb] at hadm ⊢ <;> omega

/-- Witness for `C7_step_invariant`: incumbent (100, 9, stored), admitted
entry (50, 9, stored). -/
theorem C7_step_invariant_inst :
    8 ≤ (9 : Nat) ∨ (50 < 100 ∧ (if 0x30 < (0x30 : Nat) then 4 else 1) ≤ (9 : Nat)) :=
  C7_step_invariant 8 { pack := 100, unp := 9, method := 0x30 }
    { pack := 50, unp := 9, method := 0x30 } (by decide) (by decide) (by decide)

theorem headCrypt_encrypted (sha : List Nat → List Nat) (st : R5State) (s : RStream)
    (br : Nat) (st2 : R5State) (s2 : RStream) (out : List R5Out) :
    headCryptBody sha st s br = (st2, s2, out, true) → st2.Encrypted = true := by
  intro h
  unfold headCryptBody at h
  rcases hv1 : read_vuint s br with _ | ⟨v1, l1, sA, brA⟩ <;> rw [hv1] at h <;>
    dsimp only at h
  · simp at h
  by_cases hcv : CRYPT_VERSION < v1
  · rw [if_pos hcv] at h
    simp at h
  rw [if_neg hcv] at h
  rcases hv2 : read_vuint sA brA with _ | ⟨v2, l2, sB, brB⟩ <;> rw [hv2] at h <;>
    dsimp only at h
  · simp at h
  rcases hv3 : read_uint8 sB brB with _ | ⟨lg, sC, brC⟩ <;> rw [hv3] at h <;>
    dsimp only at h
  · simp at h
  by_cases hlg : CRYPT5_KDF_LG2_COUNT_MAX < lg
  · rw [if_pos hlg] at h
    simp at h
  rw [if_neg hlg] at h
  repeat' split at h
  all_goals
    first
      | simpa using congrArg (fun t => t.2.2.2) h
      | (have hE := congrArg (fun t => t.1.Encrypted) h
         simp only [] at hE
         first
           | exact hE
           | exact hE.symm)

theorem r5_enc_emit (sha : List Nat → List Nat) (st : R5State) (s : RStream) (p : Nat)
    (hE : st.Encrypted = true) (hav : s.pos < s.data.length) :
    ∃ s2 iv, read_rar5_header sha st s p =
      (st, s2, [R5Out.record st.rar5_salt st.rar5_interations iv st.PswCheck], 1, 0) := by
  have h1 : ¬(((s.data.drop s.pos).take SIZE_INITV).length < 1) := by
    simp only [List.length_take, List.length_drop, SIZE_INITV]
    omega
  have hrb : read_buf s (List.replicate SIZE_INITV 0) SIZE_INITV 0 =
      (SIZE_INITV,
       (s.data.drop s.pos).take SIZE_INITV ++
         (List.replicate SIZE_INITV 0).drop ((s.data.drop s.pos).take SIZE_INITV).length,
       { s with pos := s.pos + ((s.data.drop s.pos).take SIZE_INITV).length,
                eof := s.eof || decide (((s.data.drop s.pos).take SIZE_INITV).length < SIZE_INITV) },
       0 + SIZE_INITV) := by
    simp only [read_buf, fread]
    rw [if_neg h1]
  unfold read_rar5_header
  rw [if_pos hE, hrb]
  rw [if_neg (by decide : ¬(SIZE_INITV ≠ SIZE_INITV))]
  exact ⟨_, _, rfl⟩

theorem r5_enc_loop (sha : List Nat → List Nat) (fuel : Nat) (st : R5State) (s : RStream)
    (hE : st.Encrypted = true) (hav : s.pos < s.data.length) :
    ∃ iv, r5Loop sha (fuel + 1) st s =
      ([R5Out.record st.rar5_salt st.rar5_interations iv st.PswCheck], 1) := by
  obtain ⟨s2, iv, heq⟩ := r5_enc_emit sha st s s.pos hE hav
  refine ⟨iv, ?_⟩
  simp only [r5Loop, heq]
  simp

/-- C8: parsing a RAR5 crypt header block with supported version and
iteration count — i.e. any run of the HEAD_CRYPT branch that falls through —
leaves the encrypted-headers latch set, with no condition on the pswcheck
flag or on the checksum verification (first conjunct); once the latch is
set, the next header read emits exactly one record carrying whatever the
password-check buffer currently holds and returns 0, terminating the block
loop (second and third conjuncts).  Concretely, `c8file` carries a crypt
block with pswcheck clear, and the run emits one record whose
password-check field is the never-written all-zero buffer. -/
theorem C8_crypt_latch :
    (∀ (sha : List Nat → List Nat) (st : R5State) (s : RStream) (br : Nat)
        (st2 : R5State) (s2 : RStream) (out : List R5Out),
        headCryptBody sha st s br = (st2, s2, out, true) → st2.Encrypted = true) ∧
    (∀ (sha : List Nat → List Nat) (st : R5State) (s : RStream) (p : Nat),
        st.Encrypted = true → s.pos < s.data.length →
        ∃ s2 iv, read_rar5_header sha st s p =
          (st, s2, [R5Out.record st.rar5_salt st.rar5_interations iv st.PswCheck], 1, 0)) ∧
    (∀ (sha : List Nat → List Nat) (fuel : Nat) (st : R5State) (s : RStream),
        st.Encrypted = true → s.pos < s.data.length →
        ∃ iv, r5Loop sha (fuel + 1) st s =
          ([R5Out.record st.rar5_salt st.rar5_interations iv st.PswCheck], 1)) ∧
    process_file5 shaZ c8file =
      ([R5Out.record c2salt 24 c2iv (List.replicate SIZE_PSWCHECK 0)], 1) := by
  exact ⟨headCrypt_encrypted, r5_enc_emit, r5_enc_loop, by decide⟩

/-- C9: a log2 iteration count equal to the supported maximum 24 passes the
crypt-header check (`> CRYPT5_KDF_LG2_COUNT_MAX` rejects), which also
accepts the block and latches Encrypted, while the same count is rejected
by the extra-area check (`>= CRYPT5_KDF_LG2_COUNT_MAX` rejects): the same
record with count 24 yields nothing, and with 23 yields a record.  A
version above CRYPT_VERSION is rejected on the header side. -/
theorem C9_lg2_boundary :
    (headCryptBody shaZ r5Init { data := c9cryptbytes, pos := 0, eof := false } 0).2.2.2
        = true ∧
      (headCryptBody shaZ r5Init { data := c9cryptbytes, pos := 0, eof := false } 0).1.rar5_interations
        = 24 ∧
      (headCryptBody shaZ r5Init { data := c9cryptbytesV1, pos := 0, eof := false } 0).2.2.2
        = false ∧
      rar5Records (ProcessExtra50 { data := c9tlv 24, pos := 0, eof := false } r5Init 49
          HEAD_FILE).2.2.1 = [] ∧
      rar5Records (ProcessExtra50 { data := c9tlv 23, pos := 0, eof := false } r5Init 49
          HEAD_FILE).2.2.1 = [R5Out.record c2salt 23 c2iv c2psw] := by
  decide

/-- C10: for `len ≥ 1`, read_buf reports full success — it returns `len`
and bumps the caller's bytes-read counter by the full `len` — whenever the
stream holds at least one byte at the current position, even when fewer
than `len` bytes are available; it fails (returning 0 and leaving the
counter alone) exactly when zero bytes could be read. -/
theorem C10_read_buf (s : RStream) (cp : List Nat) (len br : Nat) (h : 1 ≤ len) :
    (s.pos < s.data.length →
      ∃ buf s2, read_buf s cp len br = (len, buf, s2, br + len)) ∧
    (s.data.length ≤ s.pos →
      (read_buf s cp len br).1 = 0 ∧ (read_buf s cp len br).2.2.2 = br) := by
  constructor
  · intro hav
    have hng : ¬(((s.data.drop s.pos).take len).length < 1) := by
      simp only [List.length_take, List.length_drop]
      omega
    simp only [read_buf, fread]
    rw [if_neg hng]
    exact ⟨_, _, rfl⟩
  · intro hav
    have hg : ((s.data.drop s.pos).take len).length < 1 := by
      simp only [List.length_take, List.length_drop]
      omega
    simp only [read_buf, fread]
    rw [if_pos hg]
    exact ⟨rfl, rfl⟩

/-- Witness for `C10_read_buf`: a one-byte stream, `len = 5`. -/
theorem C10_read_buf_inst :
    ∃ buf s2,
      read_buf { data := [7], pos := 0, eof := false } [] 5 0 = (5, buf, s2, 0 + 5) :=
  (C10_read_buf { data := [7], pos := 0, eof := false } [] 5 0 (by decide)).1 (by decide)

end Rar2John
